import Mathlib

/-!
Verification development for the weekly_issue news pipeline.

The Python services under `app/domain/service` are shallowly embedded as
Lean functions.  Dictionaries holding a news record are embedded as the
structure `NewsRec`; a field whose key may be absent is an `Option`
(Python's `dict.get(key, default)` becomes `Option.getD`).  Numeric
confidences are embedded as rationals.  Network interactions are embedded
as explicit outcome values passed to the functions that perform them.
Strings are manipulated as character lists so that every definition
evaluates inside the kernel.
-/

/-- Boolean test: `needle` occurs as a prefix of `hay` (character lists). -/
def isPrefixB : List Char → List Char → Bool
  | [], _ => true
  | _ :: _, [] => false
  | a :: as, b :: bs => a = b && isPrefixB as bs

/-- Boolean test: `needle` occurs as a contiguous substring of `hay`.
Embeds Python's `needle in hay` on strings. -/
def isSubListB (needle : List Char) : List Char → Bool
  | [] => needle.isEmpty
  | b :: bs => isPrefixB needle (b :: bs) || isSubListB needle bs

/-- Python's `s.lower()` as a character list. -/
def lowerChars (s : String) : List Char :=
  s.toList.map Char.toLower

/-- Python's `s.strip()` as a character-list transformation. -/
def trimChars (l : List Char) : List Char :=
  (((l.dropWhile Char.isWhitespace).reverse.dropWhile Char.isWhitespace).reverse)

/-- Split a character list into the fields delimited by characters
satisfying `p`; empty fields are kept (the result is always non-empty). -/
def splitFields (p : Char → Bool) : List Char → List (List Char)
  | [] => [[]]
  | c :: rest =>
    let f := splitFields p rest
    if p c then [] :: f
    else
      match f with
      | [] => [[c]]
      | h :: t => (c :: h) :: t

/-- The non-empty fields delimited by characters satisfying `p`
(Python's `str.split()` when `p` accepts exactly the whitespace). -/
def wordsBy (p : Char → Bool) (l : List Char) : List (List Char) :=
  (splitFields p l).filter (· ≠ [])

/-- The `classification` sub-dictionary attached by the classifier. -/
structure Classification where
  label : Option String
  confidence : Option ℚ
deriving DecidableEq, Repr

/-- A news dictionary as it flows through the pipeline.  Fields are the
keys the services read or write; `none` models an absent key. -/
structure NewsRec where
  title : Option String := none
  description : Option String := none
  company : Option String := none
  link : Option String := none
  pubDate : Option String := none
  category : Option String := none
  matched_keywords : Option (List String) := none
  classification : Option Classification := none
deriving DecidableEq, Repr

/-! ## Token-set similarity

`remove_similar_titles` calls `fuzz.token_set_ratio` from the external
`fuzzywuzzy` library.  Modelled from the spec: the library is not part of
this repository; the spec describes the measure as a token-set overlap
ratio scored 0..100, robust to word order.  The embedding below follows
fuzzywuzzy's documented algorithm: both strings are lowered, non-word
characters are replaced by spaces, the token sets are split into the
common part and the two differences, and the score is the maximum of the
pairwise sequence ratios of the three recombined strings (both inputs
must process to a non-empty token list, otherwise the score is 0).  The
sequence ratio is the longest-common-subsequence ratio
`round (200 * lcs / (len1 + len2))`. -/

/-- Word characters: ASCII alphanumerics, and every non-ASCII character
(Korean text consists of word characters for Python's `\w`). -/
def isWordChar (c : Char) : Bool :=
  c.isAlphanum || 128 ≤ c.toNat

/-- Replace every non-word character by a space, then lower. -/
def processChars (s : String) : List Char :=
  (s.toList.map fun c => if isWordChar c then c else ' ').map Char.toLower

/-- The token list of a string after fuzzywuzzy's full process. -/
def fuzzTokens (s : String) : List (List Char) :=
  wordsBy (· = ' ') (processChars s)

/-- Lexicographic (code-point) comparison of two tokens, as Python
compares strings. -/
def leToken : List Char → List Char → Bool
  | [], _ => true
  | _ :: _, [] => false
  | a :: as, b :: bs =>
    if a = b then leToken as bs else decide (a.toNat ≤ b.toNat)

/-- Insert a token into an already sorted token list (ascending). -/
def insertToken (s : List Char) : List (List Char) → List (List Char)
  | [] => [s]
  | t :: ts => if leToken s t then s :: t :: ts else t :: insertToken s ts

/-- Sort tokens ascending (insertion sort; matches Python's `sorted`). -/
def sortTokens (l : List (List Char)) : List (List Char) :=
  l.foldr insertToken []

/-- Join tokens with single spaces. -/
def joinSpace : List (List Char) → List Char
  | [] => []
  | [w] => w
  | w :: x :: ws => w ++ ' ' :: joinSpace (x :: ws)

/-- Longest common subsequence length, with explicit structural fuel. -/
def lcsFuel : Nat → List Char → List Char → Nat
  | 0, _, _ => 0
  | _ + 1, [], _ => 0
  | _ + 1, _ :: _, [] => 0
  | fuel + 1, a :: as, b :: bs =>
    if a = b then lcsFuel fuel as bs + 1
    else max (lcsFuel fuel (a :: as) bs) (lcsFuel fuel as (b :: bs))

/-- Longest common subsequence length of two character lists. -/
def lcsLen (a b : List Char) : Nat :=
  lcsFuel (a.length + b.length) a b

/-- `round (100 * (2 * num) / den)` with round-half-up, in naturals. -/
def roundPct (num den : Nat) : Nat :=
  (2 * (200 * num) + den) / (2 * den)

/-- Sequence similarity of two character lists, scored 0..100. -/
def seqScore (a b : List Char) : Nat :=
  let n := a.length + b.length
  if n = 0 then 100 else roundPct (lcsLen a b) n

/-- fuzzywuzzy's `token_set_ratio` (modelled from the spec, see above). -/
def token_set_ratio (s1 s2 : String) : Nat :=
  let t1 := (fuzzTokens s1).dedup
  let t2 := (fuzzTokens s2).dedup
  if t1.isEmpty || t2.isEmpty then 0
  else
    let sect := sortTokens (t1.filter (· ∈ t2))
    let d1 := sortTokens (t1.filter (· ∉ t2))
    let d2 := sortTokens (t2.filter (· ∉ t1))
    let c0 := joinSpace sect
    let c1 := trimChars (c0 ++ ' ' :: joinSpace d1)
    let c2 := trimChars (c0 ++ ' ' :: joinSpace d2)
    max (max (seqScore c0 c1) (seqScore c0 c2)) (seqScore c1 c2)

/-! ## NewsPipelineService.remove_similar_titles -/

/-- The title a record offers for similarity comparison:
`news.get("title", "").strip()`. -/
def trimmedTitle (r : NewsRec) : String :=
  String.mk (trimChars (r.title.getD "").toList)

/-- The inner loop test: the current title is similar (score at least 85)
to some already kept record. -/
def similarToKept (kept : List NewsRec) (currentTitle : String) : Bool :=
  kept.any fun e => 85 ≤ token_set_ratio currentTitle (trimmedTitle e)

/-- The iteration of `remove_similar_titles`, carrying the accumulated
kept list. -/
def removeSimilarGo (kept : List NewsRec) : List NewsRec → List NewsRec
  | [] => kept
  | r :: rest =>
    if trimmedTitle r = "" then removeSimilarGo kept rest
    else if similarToKept kept (trimmedTitle r) then removeSimilarGo kept rest
    else removeSimilarGo (kept ++ [r]) rest

/-- `NewsPipelineService.remove_similar_titles`. -/
def remove_similar_titles (news_list : List NewsRec) : List NewsRec :=
  if news_list.isEmpty then news_list
  else removeSimilarGo [] news_list


/-! ## KeywordFilterService -/

/-- `KeywordFilterService.important_keywords` (transcribed verbatim). -/
def important_keywords : List String := [
  "가상자산", "감사보고서", "강화", "강세", "개최", "거래", "거짓", "게임 매출", "결과", "결의",
  "결정", "계약", "계약 체결", "공개", "공매도", "공시", "기술", "기록", "규탄", "갱신",
  "기각", "급등", "누적", "단행", "달성", "대비", "대표이사", "돌파", "론칭", "매입", "매출",
  "매출액", "매수세", "미공개", "메타버스", "발행", "베타", "변동", "부진", "북미", "분기",
  "법적 대응", "법적", "블록체인", "비용", "사업", "사외이사", "사전", "사전 예약", "사전예약",
  "상장", "상장폐지", "상승 마감", "상향", "상향 조정", "선임", "선정", "설립", "소각", "소송",
  "소집", "수혜", "순손실", "신규", "신작", "실적", "실적발표", "업데이트", "영업손실", "영업이익",
  "예약", "예정", "예고", "오픈", "온라인", "온보딩", "완료", "위믹스", "유상증자", "유지",
  "이상", "인건비", "인수", "자기주식", "자사주", "자본", "자본 잠식", "적자전환", "전략", "전환",
  "장중", "잠식", "정기주주총회", "정식", "제출", "조정", "종가", "주당", "주식회사", "주요",
  "주주총회", "주총", "중국", "증가", "지급", "지분", "지속", "지속가능경영보고서", "참가", "참여",
  "처분", "체결", "최대", "최초", "추진", "출시", "취득", "테스트", "투자", "투자 단행",
  "파트너십", "파트너십 체결", "판호", "퍼블리싱", "퍼블리싱 계약", "한한령", "항소", "항고", "하향",
  "하락", "합병", "현금배당", "협력", "협약", "협약 체결", "확대", "확장", "획득", "흑자전환",
  "흥행", "ESG", "%", "DLC", "1위", "ai", "cbt", "ip", "mou", "nft"]

/-- One keyword test of the inner loop: `keyword.lower() in title` where
`title = news.get("title", "").lower()`. -/
def keywordHits (keyword : String) (r : NewsRec) : Bool :=
  isSubListB (lowerChars keyword) (lowerChars (r.title.getD ""))

/-- The matched keywords collected for one record, in lexicon order. -/
def matchedFor (keywords : List String) (r : NewsRec) : List String :=
  keywords.filter (fun k => keywordHits k r)

/-- `KeywordFilterService.filter_by_keywords`, over an explicit lexicon
(the service instance fixes it to `important_keywords`).  A record with at
least one match is retained with its `matched_keywords` field set. -/
def filter_by_keywords (keywords : List String) (news_list : List NewsRec) :
    List NewsRec :=
  news_list.filterMap fun r =>
    let ms := matchedFor keywords r
    if ms.isEmpty then none
    else some { r with matched_keywords := some ms }

/-! ### Store-level embedding of `filter_by_keywords`

In Python the records are mutable dictionaries; `filter_by_keywords`
executes `news["matched_keywords"] = matched_keywords` on the caller's
record object and appends that same object.  To reason about in-place
mutation the records are placed in an explicit store (a list of records
addressed by index), and the service receives addresses. -/

/-- A fallback record for out-of-range reads (never used under the
validity hypotheses of the theorems). -/
def defaultRec : NewsRec := {}

/-- Store-level `filter_by_keywords`: reads each addressed record, and on
a keyword match writes the `matched_keywords` field back into the store
and keeps the address (the very object, not a copy). -/
def filterByKeywordsStore (keywords : List String) (addrs : List Nat)
    (store : List NewsRec) : List Nat × List NewsRec :=
  addrs.foldl
    (fun acc a =>
      let r := acc.2.getD a defaultRec
      let ms := matchedFor keywords r
      if ms.isEmpty then acc
      else (acc.1 ++ [a], acc.2.set a { r with matched_keywords := some ms }))
    ([], store)

/-! ## ClassifierService -/

/-- One entry of the classifier response array. -/
structure Prediction where
  label : Option String
  confidence : Option ℚ
deriving DecidableEq, Repr

/-- The outcome of the single batched classifier request.
`http status batch` is a response with the given status code whose parsed
body carries `batch` as its `result` field (only read when the status is
200); the error constructors are the exception paths the service catches:
`httpx.ConnectError`, `httpx.TimeoutException`, other `httpx.RequestError`,
and any other exception (including an unparseable body). -/
inductive ClassifierOutcome where
  | http (status : Nat) (batch : List Prediction)
  | connectError
  | timeoutError
  | networkError
  | otherError
deriving DecidableEq, Repr

/-- The record annotated with one prediction. -/
def annotatePrediction (r : NewsRec) (p : Prediction) : NewsRec :=
  { r with classification := some ⟨p.label, p.confidence⟩ }

/-- The fallback record: label "important", confidence 0.7. -/
def annotateFallback (r : NewsRec) : NewsRec :=
  { r with classification := some ⟨some "important", some (0.7 : ℚ)⟩ }

/-- `ClassifierService._create_fallback_results`: every record passes,
annotated with the fallback classification. -/
def create_fallback_results (news_list : List NewsRec) : List NewsRec :=
  news_list.map annotateFallback

/-- The `for i, news in enumerate(news_list)` loop of the HTTP-200
branch: position `i` of the response array annotates input position `i`;
a record is kept when its returned confidence (0 when absent) is at
least 0.6; positions at or beyond the response length are skipped. -/
def classifyLoop (batch : List Prediction) : Nat → List NewsRec → List NewsRec
  | _, [] => []
  | i, news :: rest =>
    match batch.get? i with
    | some p =>
      if (0.6 : ℚ) ≤ p.confidence.getD 0 then
        annotatePrediction news p :: classifyLoop batch (i + 1) rest
      else classifyLoop batch (i + 1) rest
    | none => classifyLoop batch (i + 1) rest

/-- `ClassifierService.classify_news`. -/
def classify_news (outcome : ClassifierOutcome) (news_list : List NewsRec) :
    List NewsRec :=
  if news_list.isEmpty then []
  else
    match outcome with
    | .http status batch =>
      if status = 200 then classifyLoop batch 0 news_list
      else create_fallback_results news_list
    | .connectError => create_fallback_results news_list
    | .timeoutError => create_fallback_results news_list
    | .networkError => create_fallback_results news_list
    | .otherError => create_fallback_results news_list

/-! ## SummaryService: date normalization

`_format_published_date` runs
`datetime.strptime(pub_date.split('+')[0].strip(), "%a, %d %b %Y %H:%M:%S")`
and renders the result with `strftime("%Y%m%d")`; on any parse failure it
returns the current date in the same rendering, and on the empty string it
returns the empty string.  The strptime pattern is embedded below: the
input (cut at the first `'+'`) is split into whitespace-separated tokens
`[weekday-comma, day, month, year, time]` and each token is validated the
way the pattern does (abbreviated names case-insensitively, 1-2 digit day,
exactly-4-digit year as CPython's `%Y` regex `\d\d\d\d` requires,
`HH:MM:SS` time, and the calendar validity checks of the `datetime`
constructor). -/

/-- Digit value of a character, `none` for a non-digit. -/
def digitVal (c : Char) : Option Nat :=
  if c.isDigit then some (c.toNat - 48) else none

/-- The numeric value of a non-empty all-digit token. -/
def natOfDigits (l : List Char) : Option Nat :=
  match l with
  | [] => none
  | _ => l.foldl (fun acc c =>
      match acc, digitVal c with
      | some a, some d => some (a * 10 + d)
      | _, _ => none) (some 0)

/-- Abbreviated weekday names recognized by `%a` (lower-cased). -/
def weekdayAbbrs : List (List Char) :=
  ["mon".toList, "tue".toList, "wed".toList, "thu".toList,
   "fri".toList, "sat".toList, "sun".toList]

/-- Abbreviated month names recognized by `%b` (lower-cased, in order). -/
def monthAbbrs : List (List Char) :=
  ["jan".toList, "feb".toList, "mar".toList, "apr".toList,
   "may".toList, "jun".toList, "jul".toList, "aug".toList,
   "sep".toList, "oct".toList, "nov".toList, "dec".toList]

/-- Month number (1..12) of an abbreviated month name, case-insensitive. -/
def monthNum (tok : List Char) : Option Nat :=
  match (monthAbbrs.indexOf? (tok.map Char.toLower)) with
  | some i => some (i + 1)
  | none => none

/-- Leap year as `datetime` decides it. -/
def isLeapYear (y : Nat) : Bool :=
  y % 4 = 0 && (y % 100 ≠ 0 || y % 400 = 0)

/-- Days in a month as `datetime` validates them. -/
def daysInMonth (y m : Nat) : Nat :=
  if m = 2 then (if isLeapYear y then 29 else 28)
  else if m = 4 || m = 6 || m = 9 || m = 11 then 30
  else 31

/-- Parse and validate the day token (`%d` plus calendar validation). -/
def parseDay (y m : Nat) (tok : List Char) : Option Nat :=
  match natOfDigits tok with
  | some d =>
    if tok.length ≤ 2 ∧ 1 ≤ d ∧ d ≤ daysInMonth y m then some d else none
  | none => none

/-- Parse and validate the `HH:MM:SS` token. -/
def parseTime (tok : List Char) : Bool :=
  match splitFields (· = ':') tok with
  | [hh, mm, ss] =>
    (match natOfDigits hh, natOfDigits mm, natOfDigits ss with
     | some h, some mi, some s =>
       hh.length ≤ 2 && mm.length ≤ 2 && ss.length ≤ 2 &&
       h ≤ 23 && mi ≤ 59 && s ≤ 59
     | _, _, _ => false)
  | _ => false

/-- Parse the five tokens of `"%a, %d %b %Y %H:%M:%S"`. -/
def parseTokens : List (List Char) → Option (Nat × Nat × Nat)
  | [wd, dd, mon, yyyy, time] =>
    if wd.getLast? = some ',' &&
        weekdayAbbrs.contains (wd.dropLast.map Char.toLower) then
      match monthNum mon, natOfDigits yyyy with
      | some m, some y =>
        if yyyy.length = 4 ∧ 1 ≤ y then
          match parseDay y m dd with
          | some d => if parseTime time then some (y, m, d) else none
          | none => none
        else none
      | _, _ => none
    else none
  | _ => none

/-- `strptime` of the service's pattern applied to
`pub_date.split('+')[0].strip()`. -/
def parsePubDate (pub_date : String) : Option (Nat × Nat × Nat) :=
  parseTokens (wordsBy Char.isWhitespace (pub_date.toList.takeWhile (· ≠ '+')))

/-- The decimal digit character of `n % 10`. -/
def digitChar10 (n : Nat) : Char :=
  Char.ofNat (48 + n % 10)

/-- Zero-padded two-digit rendering. -/
def showD2 (n : Nat) : List Char :=
  [digitChar10 (n / 10), digitChar10 (n % 10)]

/-- Zero-padded four-digit rendering. -/
def showD4 (n : Nat) : List Char :=
  [digitChar10 (n / 1000), digitChar10 (n / 100 % 10),
   digitChar10 (n / 10 % 10), digitChar10 (n % 10)]

/-- The decimal digits of `n`, most significant first, with explicit
structural fuel (`showNat 999 = "999"`, no padding). -/
def showNatFuel : Nat → Nat → List Char → List Char
  | 0, _, acc => acc
  | fuel + 1, n, acc =>
    if n < 10 then digitChar10 n :: acc
    else showNatFuel fuel (n / 10) (digitChar10 (n % 10) :: acc)

/-- Unpadded decimal rendering of a natural number. -/
def showNat (n : Nat) : List Char :=
  showNatFuel (n + 1) n []

/-- `strftime("%Y%m%d")`: the year is rendered unpadded (CPython's
`strftime` does not zero-pad `%Y` below 1000 on this platform), month and
day are zero-padded to two digits. -/
def renderYMD (y m d : Nat) : String :=
  String.mk (showNat y ++ showD2 m ++ showD2 d)

/-- `SummaryService._format_published_date`.  `today` stands for
`datetime.now().strftime("%Y%m%d")`. -/
def format_published_date (today : String) (pub_date : String) : String :=
  if pub_date = "" then ""
  else
    match parsePubDate pub_date with
    | some (y, m, d) => renderYMD y m d
    | none => today

/-! ## SummaryService: summaries -/

/-- Python's `s[:n]` on a string, as a string. -/
def strTake (s : String) (n : Nat) : String :=
  String.mk (s.toList.take n)

/-- Character count of a string (Python's `len`). -/
def strLen (s : String) : Nat :=
  s.toList.length

/-- `SummaryService._generate_fallback_summary`. -/
def generate_fallback_summary (news : NewsRec) : String :=
  let title := news.title.getD ""
  let description := news.description.getD ""
  let company := news.company.getD ""
  if title ≠ "" ∧ description ≠ "" then
    let base_summary := company ++ " 관련 뉴스: " ++ strTake title 30
    let base_summary :=
      if strLen base_summary < 80 ∧ description ≠ "" then
        let remaining_chars := 100 - strLen base_summary - 5
        if remaining_chars > 10 then
          base_summary ++ " - " ++ strTake description remaining_chars ++ "..."
        else base_summary
      else base_summary
    strTake base_summary 100
  else if title ≠ "" then
    company ++ " 관련 뉴스: " ++ strTake title 70
  else
    company ++ " 관련 뉴스가 발표되었습니다."

/-- What one summarizer request for one item came back as.
`ok summary` is an HTTP 200 whose parsed body carried `summary` as its
`summary` field; `httpError st` is a non-200 status; `requestError` is an
`httpx.RequestError` (timeouts included); `otherError` any other
exception. -/
inductive SummOutcome where
  | ok (summary : String)
  | httpError (status : Nat)
  | requestError
  | otherError
deriving DecidableEq, Repr

/-- The terminal record built by the summary service. -/
structure SummaryResult where
  id : String
  corp : Option String
  summary : String
  original_title : Option String
  confidence : ℚ
  matched_keywords : List String
  news_url : String
  published_date : String
  category : String
  sentiment : String
  summary_type : String
deriving DecidableEq, Repr

/-- The confidence the summary stage reads back:
`news.get("classification", {}).get("confidence", 0)`. -/
def readConfidence (news : NewsRec) : ℚ :=
  match news.classification with
  | some c => c.confidence.getD 0
  | none => 0

/-- The common result shape (shared by the success path and
`_create_fallback_result`). -/
def mkSummaryResult (uuid : String) (today : String) (news : NewsRec)
    (summaryText : String) (summaryType : String) : SummaryResult :=
  { id := uuid
    corp := news.company
    summary := summaryText
    original_title := news.title
    confidence := readConfidence news
    matched_keywords := news.matched_keywords.getD []
    news_url := news.link.getD ""
    published_date := format_published_date today (news.pubDate.getD "")
    category := news.category.getD "일반"
    sentiment := "neutral"
    summary_type := summaryType }

/-- The body of the per-item loop of `summarize_news` (one result per
item, success or fallback). -/
def summarizeOne (uuid : String) (today : String) (outcome : SummOutcome)
    (news : NewsRec) : SummaryResult :=
  match outcome with
  | .ok summary =>
    if summary = "" ∨ String.mk (trimChars summary.toList) = "" then
      mkSummaryResult uuid today news (generate_fallback_summary news)
        "fallback_empty_response"
    else
      mkSummaryResult uuid today news summary "ai_generated"
  | .httpError st =>
    mkSummaryResult uuid today news (generate_fallback_summary news)
      ("fallback_api_error_" ++ toString st)
  | .requestError =>
    mkSummaryResult uuid today news (generate_fallback_summary news)
      "fallback_network_error"
  | .otherError =>
    mkSummaryResult uuid today news (generate_fallback_summary news)
      "fallback_unknown_error"

/-- The sequential loop of `summarize_news`; `outcomes i` and `uuids i`
are the request outcome and the generated id for the item at position
`i`. -/
def summarizeLoop (outcomes : Nat → SummOutcome) (uuids : Nat → String)
    (today : String) : Nat → List NewsRec → List SummaryResult
  | _, [] => []
  | i, news :: rest =>
    summarizeOne (uuids i) today (outcomes i) news ::
      summarizeLoop outcomes uuids today (i + 1) rest

/-- `SummaryService.summarize_news`. -/
def summarize_news (outcomes : Nat → SummOutcome) (uuids : Nat → String)
    (today : String) (news_list : List NewsRec) : List SummaryResult :=
  summarizeLoop outcomes uuids today 0 news_list

/-! ## NewsPipelineService.process_news_pipeline -/

/-- The environment a pipeline run interacts with.  `fetch` is the result
of one company's news collection task under `asyncio.gather(...,
return_exceptions=True)` (an exception value contributes no items);
`classifier` the outcome of the batched classifier request; `outcomes`,
`uuids`, `today` feed the summary stage; `crash` models an unhandled
exception raised inside the orchestrator's `try` block (`none` when
execution completes normally). -/
structure PipelineEnv where
  fetch : String → Except String (List NewsRec)
  classifier : ClassifierOutcome
  outcomes : Nat → SummOutcome
  uuids : Nat → String
  today : String
  crash : Option String := none

/-- The dictionary `process_news_pipeline` returns.  The
`after_deduplication` key is absent from the branch that returns when no
news was collected, hence an `Option`; `companies_processed` only exists
in the full-success dictionary. -/
structure PipelineResult where
  status : String
  message : String
  total_collected : Nat
  after_keyword_filter : Nat
  after_deduplication : Option Nat
  after_classification : Nat
  final_summaries : Nat
  companies_processed : Option (List String)
  results : List SummaryResult
deriving DecidableEq, Repr

/-- Collection stage: every task that resolved to a list contributes its
items, in company order; a task that resolved to an exception contributes
nothing. -/
def collectNews (env : PipelineEnv) (companies : List String) : List NewsRec :=
  companies.foldl
    (fun acc c =>
      match env.fetch c with
      | .ok items => acc ++ items
      | .error _ => acc)
    []

/-- The error dictionary of the top-level `except` handler. -/
def pipelineErrorResult (msg : String) : PipelineResult :=
  { status := "error"
    message := "파이프라인 처리 중 오류 발생: " ++ msg
    total_collected := 0
    after_keyword_filter := 0
    after_deduplication := some 0
    after_classification := 0
    final_summaries := 0
    companies_processed := none
    results := [] }

/-- `NewsPipelineService.process_news_pipeline`. -/
def process_news_pipeline (env : PipelineEnv) (companies : List String) :
    PipelineResult :=
  match env.crash with
  | some msg => pipelineErrorResult msg
  | none =>
    let all_news := collectNews env companies
    if all_news.isEmpty then
      { status := "success"
        message := "수집된 뉴스가 없습니다."
        total_collected := 0
        after_keyword_filter := 0
        after_deduplication := none
        after_classification := 0
        final_summaries := 0
        companies_processed := none
        results := [] }
    else
      let keyword_filtered_news := filter_by_keywords important_keywords all_news
      if keyword_filtered_news.isEmpty then
        { status := "success"
          message := "키워드 필터링을 통과한 뉴스가 없습니다."
          total_collected := all_news.length
          after_keyword_filter := 0
          after_deduplication := some 0
          after_classification := 0
          final_summaries := 0
          companies_processed := none
          results := [] }
      else
        let deduped_news := remove_similar_titles keyword_filtered_news
        if deduped_news.isEmpty then
          { status := "success"
            message := "유사 제목 제거 후 남은 뉴스가 없습니다."
            total_collected := all_news.length
            after_keyword_filter := keyword_filtered_news.length
            after_deduplication := some 0
            after_classification := 0
            final_summaries := 0
            companies_processed := none
            results := [] }
        else
          let classified_news := classify_news env.classifier deduped_news
          if classified_news.isEmpty then
            { status := "success"
              message := "AI 분류를 통과한 뉴스가 없습니다."
              total_collected := all_news.length
              after_keyword_filter := keyword_filtered_news.length
              after_deduplication := some deduped_news.length
              after_classification := 0
              final_summaries := 0
              companies_processed := none
              results := [] }
          else
            let final_results :=
              summarize_news env.outcomes env.uuids env.today classified_news
            { status := "success"
              message := "뉴스 파이프라인 처리 완료"
              total_collected := all_news.length
              after_keyword_filter := keyword_filtered_news.length
              after_deduplication := some deduped_news.length
              after_classification := classified_news.length
              final_summaries := final_results.length
              companies_processed := some companies
              results := final_results }

/-! ## Helper lemmas: the deduplication loop -/

/-- The dissimilarity relation kept by the greedy loop: the later (current)
record scores below the threshold against the earlier (kept) record. -/
def dissimilar (earlier later : NewsRec) : Prop :=
  token_set_ratio (trimmedTitle later) (trimmedTitle earlier) < 85

lemma removeSimilarGo_spec (l : List NewsRec) :
    ∀ kept, ∃ extra, removeSimilarGo kept l = kept ++ extra ∧
      extra.Sublist l ∧ ∀ r ∈ extra, trimmedTitle r ≠ "" := by
  induction l with
  | nil => exact fun kept => ⟨[], by simp [removeSimilarGo]⟩
  | cons r rest ih =>
    intro kept
    by_cases hb : trimmedTitle r = ""
    · obtain ⟨extra, he, hs, hnb⟩ := ih kept
      exact ⟨extra, by simp [removeSimilarGo, hb, he],
        List.sublist_cons_of_sublist _ hs, hnb⟩
    · by_cases hsim : similarToKept kept (trimmedTitle r)
      · obtain ⟨extra, he, hs, hnb⟩ := ih kept
        exact ⟨extra, by simp [removeSimilarGo, hb, hsim, he],
          List.sublist_cons_of_sublist _ hs, hnb⟩
      · obtain ⟨extra, he, hs, hnb⟩ := ih (kept ++ [r])
        refine ⟨r :: extra, ?_, List.Sublist.cons₂ _ hs, ?_⟩
        · simp [removeSimilarGo, hb, hsim, he]
        · intro x hx
          rcases List.mem_cons.1 hx with hx | hx
          · exact hx ▸ hb
          · exact hnb x hx

lemma mem_removeSimilarGo_of_mem_kept {kept : List NewsRec}
    {r : NewsRec} (h : r ∈ kept) (l : List NewsRec) :
    r ∈ removeSimilarGo kept l := by
  obtain ⟨extra, he, -, -⟩ := removeSimilarGo_spec l kept
  exact he ▸ List.mem_append_left _ h

lemma removeSimilarGo_pairwise (l : List NewsRec) :
    ∀ kept, List.Pairwise dissimilar kept →
      List.Pairwise dissimilar (removeSimilarGo kept l) := by
  induction l with
  | nil => intro kept h; simpa [removeSimilarGo] using h
  | cons r rest ih =>
    intro kept h
    by_cases hb : trimmedTitle r = ""
    · simpa [removeSimilarGo, hb] using ih kept h
    · by_cases hsim : similarToKept kept (trimmedTitle r)
      · simpa [removeSimilarGo, hb, hsim] using ih kept h
      · have hall : ∀ e ∈ kept, dissimilar e r := by
          simpa [similarToKept, dissimilar] using hsim
        have hp : List.Pairwise dissimilar (kept ++ [r]) := by
          rw [List.pairwise_append]
          exact ⟨h, List.pairwise_singleton _ _, by simpa using hall⟩
        simpa [removeSimilarGo, hb, hsim] using ih (kept ++ [r]) hp

lemma removeSimilarGo_dropped (l : List NewsRec) :
    ∀ kept r, r ∈ l → r ∉ removeSimilarGo kept l →
      trimmedTitle r = "" ∨
        ∃ e ∈ removeSimilarGo kept l,
          85 ≤ token_set_ratio (trimmedTitle r) (trimmedTitle e) := by
  induction l with
  | nil => intro kept r hr; cases hr
  | cons x rest ih =>
    intro kept r hr hout
    by_cases hb : trimmedTitle x = ""
    · rw [show removeSimilarGo kept (x :: rest) = removeSimilarGo kept rest from
        by simp [removeSimilarGo, hb]] at hout ⊢
      rcases List.mem_cons.1 hr with hrx | hrx
      · exact Or.inl (hrx ▸ hb)
      · exact ih kept r hrx hout
    · by_cases hsim : similarToKept kept (trimmedTitle x)
      · rw [show removeSimilarGo kept (x :: rest) = removeSimilarGo kept rest from
          by simp [removeSimilarGo, hb, hsim]] at hout ⊢
        rcases List.mem_cons.1 hr with hrx | hrx
        · subst hrx
          obtain ⟨e, he, hsc⟩ := by
            simpa [similarToKept] using hsim
          exact Or.inr ⟨e, mem_removeSimilarGo_of_mem_kept he rest, hsc⟩
        · exact ih kept r hrx hout
      · rw [show removeSimilarGo kept (x :: rest) =
            removeSimilarGo (kept ++ [x]) rest from
          by simp [removeSimilarGo, hb, hsim]] at hout ⊢
        rcases List.mem_cons.1 hr with hrx | hrx
        · subst hrx
          exact absurd
            (mem_removeSimilarGo_of_mem_kept (List.mem_append_right _ (by simp)) rest)
            hout
        · exact ih (kept ++ [x]) r hrx hout

lemma remove_similar_titles_sublist (l : List NewsRec) :
    (remove_similar_titles l).Sublist l := by
  unfold remove_similar_titles
  by_cases h : l.isEmpty
  · simp [h]
  · obtain ⟨extra, he, hs, -⟩ := removeSimilarGo_spec l []
    simpa [h, he] using hs

lemma remove_similar_titles_nonblank {l : List NewsRec} {r : NewsRec}
    (hb : trimmedTitle r = "") : r ∉ remove_similar_titles l := by
  unfold remove_similar_titles
  by_cases h : l.isEmpty
  · rcases l with _ | ⟨x, xs⟩
    · simp
    · simp at h
  · obtain ⟨extra, he, -, hnb⟩ := removeSimilarGo_spec l []
    simp only [h, if_false, he, List.nil_append]
    intro hmem
    exact hnb r hmem hb

lemma remove_similar_titles_length_le (l : List NewsRec) :
    (remove_similar_titles l).length ≤ l.length :=
  (remove_similar_titles_sublist l).length_le

lemma remove_similar_titles_pairwise (l : List NewsRec) :
    List.Pairwise dissimilar (remove_similar_titles l) := by
  unfold remove_similar_titles
  by_cases h : l.isEmpty
  · rcases l with _ | ⟨x, xs⟩ <;> simp_all
  · simpa [h] using removeSimilarGo_pairwise l [] (by simp)

lemma remove_similar_titles_dropped {l : List NewsRec} {r : NewsRec}
    (hr : r ∈ l) (hout : r ∉ remove_similar_titles l) :
    trimmedTitle r = "" ∨
      ∃ e ∈ remove_similar_titles l,
        85 ≤ token_set_ratio (trimmedTitle r) (trimmedTitle e) := by
  unfold remove_similar_titles at hout ⊢
  by_cases h : l.isEmpty
  · rcases l with _ | ⟨x, xs⟩
    · cases hr
    · simp at h
  · simp only [h, if_false] at hout ⊢
    exact removeSimilarGo_dropped l [] r hr hout

lemma remove_similar_triple (a b c : NewsRec)
    (ha : trimmedTitle a ≠ "") (hb : trimmedTitle b ≠ "")
    (hc : trimmedTitle c ≠ "")
    (hab : 85 ≤ token_set_ratio (trimmedTitle b) (trimmedTitle a))
    (hca : token_set_ratio (trimmedTitle c) (trimmedTitle a) < 85) :
    remove_similar_titles [a, b, c] = [a, c] := by
  have h1 : similarToKept [] (trimmedTitle a) = false := rfl
  have h2 : similarToKept [a] (trimmedTitle b) = true := by
    simp [similarToKept, hab]
  have h3 : similarToKept [a] (trimmedTitle c) = false := by
    simp [similarToKept]
    omega
  simp [remove_similar_titles, removeSimilarGo, ha, hb, hc, h1, h2, h3]

/-- Sample records for the concrete dedup statements. -/
def recHello : NewsRec := { title := some "hello world" }

/-- A record whose title is whitespace-only. -/
def recBlankTitle : NewsRec := { title := some "  " }

/-- A record with no title key at all. -/
def recNoTitle : NewsRec := {}

/-- Near-duplicate of `recHello` (same token set, other word order). -/
def recHello2 : NewsRec := { title := some "world hello" }

/-- A record dissimilar from both of the above. -/
def recApple : NewsRec := { title := some "apple" }

/-! ## Helper lemmas: classifier, filter, summarizer -/

/-- The positional acceptance function of the HTTP-200 branch. -/
def acceptPair (nb : NewsRec × Prediction) : Option NewsRec :=
  if (0.6 : ℚ) ≤ nb.2.confidence.getD 0 then some (annotatePrediction nb.1 nb.2)
  else none

lemma classifyLoop_eq_zip (batch : List Prediction) (l : List NewsRec) :
    ∀ i, classifyLoop batch i l = (l.zip (batch.drop i)).filterMap acceptPair := by
  induction l with
  | nil => intro i; simp [classifyLoop]
  | cons news rest ih =>
    intro i
    have hh := List.head?_drop batch i
    have ht := List.tail_drop batch i
    rcases hd : batch.drop i with _ | ⟨p, t⟩
    · have hg : batch[i]? = none := by
        rw [← hh, hd]
        rfl
      have hd1 : batch.drop (i + 1) = [] := by
        rw [← ht, hd]
        rfl
      simp [classifyLoop, hg, ih (i + 1), hd1]
    · have hg : batch[i]? = some p := by
        rw [← hh, hd]
        rfl
      have hd1 : batch.drop (i + 1) = t := by
        rw [← ht, hd]
        rfl
      by_cases hc : (0.6 : ℚ) ≤ p.confidence.getD 0
      · simp [classifyLoop, hg, hc, ih (i + 1), hd1, acceptPair]
      · simp [classifyLoop, hg, hc, ih (i + 1), hd1, acceptPair]

lemma classify_news_200 (batch : List Prediction) (l : List NewsRec) :
    classify_news (.http 200 batch) l = (l.zip batch).filterMap acceptPair := by
  rcases l with _ | ⟨x, xs⟩
  · simp [classify_news]
  · simpa [classify_news] using classifyLoop_eq_zip batch (x :: xs) 0

lemma classify_news_length_le (o : ClassifierOutcome) (l : List NewsRec) :
    (classify_news o l).length ≤ l.length := by
  rcases o with ⟨status, batch⟩ | _ | _ | _ | _
  · by_cases hs : status = 200
    · subst hs
      rw [classify_news_200]
      calc ((l.zip batch).filterMap acceptPair).length
          ≤ (l.zip batch).length := List.length_filterMap_le _ _
        _ ≤ l.length := by rw [List.length_zip]; omega
    · rcases l with _ | ⟨x, xs⟩ <;>
        simp [classify_news, hs, create_fallback_results]
  all_goals rcases l with _ | ⟨x, xs⟩ <;>
    simp [classify_news, create_fallback_results]

lemma summarizeLoop_length (outcomes : Nat → SummOutcome) (uuids : Nat → String)
    (today : String) (l : List NewsRec) :
    ∀ i, (summarizeLoop outcomes uuids today i l).length = l.length := by
  induction l with
  | nil => intro i; rfl
  | cons news rest ih => intro i; simp [summarizeLoop, ih (i + 1)]

lemma summarize_news_length (outcomes : Nat → SummOutcome) (uuids : Nat → String)
    (today : String) (l : List NewsRec) :
    (summarize_news outcomes uuids today l).length = l.length :=
  summarizeLoop_length outcomes uuids today l 0

lemma filter_by_keywords_length_le (kws : List String) (l : List NewsRec) :
    (filter_by_keywords kws l).length ≤ l.length :=
  List.length_filterMap_le _ _

lemma filter_by_keywords_eq_filter_map (kws : List String) (l : List NewsRec) :
    filter_by_keywords kws l =
      (l.filter fun r => !(matchedFor kws r).isEmpty).map
        (fun r => { r with matched_keywords := some (matchedFor kws r) }) := by
  induction l with
  | nil => rfl
  | cons r rest ih =>
    by_cases hm : matchedFor kws r = [] <;>
      simpa [filter_by_keywords, hm, List.filter_cons] using ih

/-! ## Claim theorems -/

/-- C2 (counterexample): a whitespace-only title is discarded by
`remove_similar_titles` even though its similarity score against the only
kept title is below 85, refuting "discarded if and only if its token-set
similarity score against some already-kept title is ≥ 85". -/
theorem C2_counterexample :
    recBlankTitle ∈ [recHello, recBlankTitle] ∧
    remove_similar_titles [recHello, recBlankTitle] = [recHello] ∧
    recBlankTitle ∉ remove_similar_titles [recHello, recBlankTitle] ∧
    token_set_ratio (trimmedTitle recBlankTitle) (trimmedTitle recHello) < 85 := by
  decide

/-- C2 (amended): `remove_similar_titles` performs greedy first-seen-wins
deduplication: the output is an order-preserving subsequence of the input,
empty input yields empty output, kept items are pairwise dissimilar (each
later kept item scores below 85 against each earlier one), a discarded
item either has a blank (absent/empty/whitespace-only) title or scores at
least 85 against some kept title, a blank-titled item is always discarded,
and for three non-blank titles where B scores ≥ 85 against A and C is
dissimilar to both, the result is exactly [A, C]. -/
theorem C2_amended_thm :
    (∀ l : List NewsRec, (remove_similar_titles l).Sublist l) ∧
    remove_similar_titles ([] : List NewsRec) = [] ∧
    (∀ l : List NewsRec, List.Pairwise dissimilar (remove_similar_titles l)) ∧
    (∀ (l : List NewsRec) (r : NewsRec), r ∈ l → r ∉ remove_similar_titles l →
      trimmedTitle r = "" ∨
        ∃ e ∈ remove_similar_titles l,
          85 ≤ token_set_ratio (trimmedTitle r) (trimmedTitle e)) ∧
    (∀ (l : List NewsRec) (r : NewsRec), trimmedTitle r = "" →
      r ∉ remove_similar_titles l) ∧
    (∀ a b c : NewsRec, trimmedTitle a ≠ "" → trimmedTitle b ≠ "" →
      trimmedTitle c ≠ "" →
      85 ≤ token_set_ratio (trimmedTitle b) (trimmedTitle a) →
      token_set_ratio (trimmedTitle c) (trimmedTitle a) < 85 →
      token_set_ratio (trimmedTitle c) (trimmedTitle b) < 85 →
      remove_similar_titles [a, b, c] = [a, c]) := by
  refine ⟨remove_similar_titles_sublist, rfl, remove_similar_titles_pairwise,
    ?_, ?_, ?_⟩
  · exact fun l r hr hout => remove_similar_titles_dropped hr hout
  · exact fun l r hb => remove_similar_titles_nonblank hb
  · exact fun a b c ha hb hc hab hca _ => remove_similar_triple a b c ha hb hc hab hca

/-- Witness for C2's amended theorem at concrete titles. -/
theorem C2_amended_witness :
    remove_similar_titles [recHello, recHello2, recApple] = [recHello, recApple] :=
  C2_amended_thm.2.2.2.2.2 recHello recHello2 recApple
    (by decide) (by decide) (by decide) (by decide) (by decide) (by decide)

/-- C10: an item whose title is absent, empty or whitespace-only never
appears in the output of `remove_similar_titles`, and is never added to
the kept list the loop compares against. -/
theorem C10_thm (l : List NewsRec) (r : NewsRec) (_hmem : r ∈ l)
    (hb : trimmedTitle r = "") :
    r ∉ remove_similar_titles l ∧
    ∀ kept : List NewsRec, r ∉ kept → r ∉ removeSimilarGo kept l := by
  refine ⟨remove_similar_titles_nonblank hb, ?_⟩
  intro kept hk hmem'
  obtain ⟨extra, he, -, hnb⟩ := removeSimilarGo_spec l kept
  rw [he] at hmem'
  rcases List.mem_append.1 hmem' with h | h
  · exact hk h
  · exact hnb r h hb

/-- Witness for C10 at a whitespace-only title and at an absent title. -/
theorem C10_witness :
    recBlankTitle ∉ remove_similar_titles [recHello, recBlankTitle] ∧
    recNoTitle ∉ remove_similar_titles [recNoTitle] :=
  ⟨(C10_thm [recHello, recBlankTitle] recBlankTitle (by decide) (by decide)).1,
   (C10_thm [recNoTitle] recNoTitle (by decide) (by decide)).1⟩

/-- Five sample records (the spec's fallback example batch). -/
def fiveRecs : List NewsRec :=
  [{ title := some "n1" }, { title := some "n2" }, { title := some "n3" },
   { title := some "n4" }, { title := some "n5" }]

/-- C3: on any non-2xx HTTP status and on every caught exception
(connection error, timeout, other network error, any other exception),
`classify_news` returns every input item in input order annotated with
label "important" and confidence 0.7, so the output length equals the
input length. -/
theorem C3_thm (l : List NewsRec) :
    (∀ (status : Nat) (batch : List Prediction),
      ¬(200 ≤ status ∧ status < 300) →
      classify_news (.http status batch) l = create_fallback_results l) ∧
    classify_news .connectError l = create_fallback_results l ∧
    classify_news .timeoutError l = create_fallback_results l ∧
    classify_news .networkError l = create_fallback_results l ∧
    classify_news .otherError l = create_fallback_results l ∧
    create_fallback_results l = l.map annotateFallback ∧
    (create_fallback_results l).length = l.length ∧
    ∀ r ∈ create_fallback_results l,
      r.classification = some ⟨some "important", some (0.7 : ℚ)⟩ := by
  refine ⟨?_, ?_, ?_, ?_, ?_, rfl, by simp [create_fallback_results], ?_⟩
  · intro status batch hst
    have hs : status ≠ 200 := by omega
    rcases l with _ | ⟨x, xs⟩ <;> simp [classify_news, hs, create_fallback_results]
  · rcases l with _ | ⟨x, xs⟩ <;> simp [classify_news, create_fallback_results]
  · rcases l with _ | ⟨x, xs⟩ <;> simp [classify_news, create_fallback_results]
  · rcases l with _ | ⟨x, xs⟩ <;> simp [classify_news, create_fallback_results]
  · rcases l with _ | ⟨x, xs⟩ <;> simp [classify_news, create_fallback_results]
  · intro r hr
    simp only [create_fallback_results] at hr
    obtain ⟨x, -, hx⟩ := List.mem_map.1 hr
    rw [← hx]
    rfl

/-- Witness for C3: an HTTP 500 over a batch of five items keeps all
five, fallback-annotated. -/
theorem C3_witness :
    classify_news (.http 500 []) fiveRecs = create_fallback_results fiveRecs ∧
    (classify_news (.http 500 []) fiveRecs).length = 5 :=
  ⟨(C3_thm fiveRecs).1 500 [] (by omega), by decide⟩

/-- C4: on HTTP 200 the response entries pair positionally with the
input items; exactly the pairs whose returned confidence is at least 0.6
are retained (annotated with the real label and confidence), the items at
positions at or beyond the response length are dropped without fallback,
and the output length is bounded by the response length. -/
theorem C4_thm (l : List NewsRec) (batch : List Prediction) :
    classify_news (.http 200 batch) l = (l.zip batch).filterMap acceptPair ∧
    (∀ nb : NewsRec × Prediction,
      acceptPair nb =
        if (0.6 : ℚ) ≤ nb.2.confidence.getD 0 then
          some (annotatePrediction nb.1 nb.2)
        else none) ∧
    (classify_news (.http 200 batch) l).length ≤ batch.length ∧
    (l.zip batch).length = min l.length batch.length := by
  refine ⟨classify_news_200 batch l, fun _ => rfl, ?_, List.length_zip l batch⟩
  rw [classify_news_200]
  calc ((l.zip batch).filterMap acceptPair).length
      ≤ (l.zip batch).length := List.length_filterMap_le _ _
    _ ≤ batch.length := by rw [List.length_zip]; omega

/-- The spec's keyword-filter example record. -/
def recListing : NewsRec := { title := some "Company announces new listing" }

/-- C6: `filter_by_keywords` retains exactly the items for which some
lexicon keyword, lower-cased, is a substring of the lower-cased title;
retained items carry the full non-empty matched list, dropped items have
no match, and input order is preserved (the output is the order-preserving
filter of the input, mapped to set `matched_keywords`); with a lexicon
containing "listing", a title containing "listing" is retained with
matched keywords ["listing"]. -/
theorem C6_thm :
    (∀ (kws : List String) (l : List NewsRec),
      filter_by_keywords kws l =
        (l.filter fun r => !(matchedFor kws r).isEmpty).map
          (fun r => { r with matched_keywords := some (matchedFor kws r) })) ∧
    (∀ (k : String) (r : NewsRec),
      keywordHits k r = isSubListB (lowerChars k) (lowerChars (r.title.getD ""))) ∧
    (∀ (kws : List String) (l : List NewsRec) (r' : NewsRec),
      r' ∈ filter_by_keywords kws l →
      ∃ ms, r'.matched_keywords = some ms ∧ ms ≠ []) ∧
    filter_by_keywords (important_keywords ++ ["listing"]) [recListing] =
      [{ recListing with matched_keywords := some ["listing"] }] := by
  refine ⟨filter_by_keywords_eq_filter_map, fun _ _ => rfl, ?_, by decide⟩
  intro kws l r' hr'
  rw [filter_by_keywords_eq_filter_map] at hr'
  obtain ⟨x, hx, hmap⟩ := List.mem_map.1 hr'
  have hne : matchedFor kws x ≠ [] := by
    have := (List.mem_filter.1 hx).2
    simpa using this
  exact ⟨matchedFor kws x, by rw [← hmap], hne⟩

/-- Witness for C6 at the spec's "listing" example. -/
theorem C6_witness :
    ∃ ms, ({ recListing with matched_keywords := some ["listing"] } :
        NewsRec).matched_keywords = some ms ∧ ms ≠ [] :=
  C6_thm.2.2.1 (important_keywords ++ ["listing"]) [recListing]
    { recListing with matched_keywords := some ["listing"] }
    (by rw [C6_thm.2.2.2]; exact List.mem_singleton.2 rfl)

/-! ## Helper lemmas: the orchestrator -/

lemma pipeline_counts (env : PipelineEnv) (companies : List String) :
    (process_news_pipeline env companies).final_summaries ≤
      (process_news_pipeline env companies).after_classification ∧
    (process_news_pipeline env companies).after_classification ≤
      ((process_news_pipeline env companies).after_deduplication).getD 0 ∧
    ((process_news_pipeline env companies).after_deduplication).getD 0 ≤
      (process_news_pipeline env companies).after_keyword_filter ∧
    (process_news_pipeline env companies).after_keyword_filter ≤
      (process_news_pipeline env companies).total_collected ∧
    ((process_news_pipeline env companies).companies_processed.isSome = true →
      (process_news_pipeline env companies).final_summaries =
        (process_news_pipeline env companies).after_classification) := by
  rcases hcr : env.crash with _ | msg
  · simp only [process_news_pipeline, hcr]
    split_ifs with h1 h2 h3 h4
    · simp
    · simp
    · simp [filter_by_keywords_length_le important_keywords _]
    · simp
      constructor
      · exact remove_similar_titles_length_le _
      · exact filter_by_keywords_length_le _ _
    · simp [summarize_news_length]
      refine ⟨?_, ?_, ?_⟩
      · exact classify_news_length_le _ _
      · exact remove_similar_titles_length_le _
      · exact filter_by_keywords_length_le _ _
  · simp [process_news_pipeline, hcr, pipelineErrorResult]

/-- C1: stage counts are monotonically non-increasing
(`final_summaries ≤ after_classification ≤ after_deduplication ≤
after_keyword_filter ≤ total_collected`, reading an unreported
`after_deduplication` count as 0), whenever the summarization stage runs
(the full-pipeline result, recognizable by its `companies_processed`
entry) `final_summaries = after_classification`, and the per-stage
reasons hold: `summarize_news` returns exactly one result per input item
while `filter_by_keywords`, `remove_similar_titles` and `classify_news`
each return at most as many items as they receive. -/
theorem C1_thm :
    (∀ (outs : Nat → SummOutcome) (uuids : Nat → String) (today : String)
      (l : List NewsRec),
      (summarize_news outs uuids today l).length = l.length) ∧
    (∀ (kws : List String) (l : List NewsRec),
      (filter_by_keywords kws l).length ≤ l.length) ∧
    (∀ l : List NewsRec, (remove_similar_titles l).length ≤ l.length) ∧
    (∀ (o : ClassifierOutcome) (l : List NewsRec),
      (classify_news o l).length ≤ l.length) ∧
    ∀ (env : PipelineEnv) (companies : List String),
      (process_news_pipeline env companies).final_summaries ≤
        (process_news_pipeline env companies).after_classification ∧
      (process_news_pipeline env companies).after_classification ≤
        ((process_news_pipeline env companies).after_deduplication).getD 0 ∧
      ((process_news_pipeline env companies).after_deduplication).getD 0 ≤
        (process_news_pipeline env companies).after_keyword_filter ∧
      (process_news_pipeline env companies).after_keyword_filter ≤
        (process_news_pipeline env companies).total_collected ∧
      ((process_news_pipeline env companies).companies_processed.isSome = true →
        (process_news_pipeline env companies).final_summaries =
          (process_news_pipeline env companies).after_classification) :=
  ⟨summarize_news_length, filter_by_keywords_length_le,
   remove_similar_titles_length_le, classify_news_length_le, pipeline_counts⟩

/-- A record that passes the keyword filter ("신작" and "출시" are lexicon
entries). -/
def recK : NewsRec := { title := some "신작 출시" }

/-- An environment that drives the pipeline through all five stages. -/
def envFull : PipelineEnv :=
  { fetch := fun _ => .ok [recK]
    classifier := .connectError
    outcomes := fun _ => .requestError
    uuids := fun _ => "id-0"
    today := "20250101"
    crash := none }

/-- Witness for C1 at a full-pipeline run. -/
theorem C1_witness :
    (process_news_pipeline envFull ["넷마블"]).companies_processed.isSome = true ∧
    (process_news_pipeline envFull ["넷마블"]).final_summaries =
      (process_news_pipeline envFull ["넷마블"]).after_classification :=
  ⟨by decide, (C1_thm.2.2.2.2 envFull ["넷마블"]).2.2.2.2 (by decide)⟩

/-- An environment in which collection yields nothing (every fetch task
resolves to an exception). -/
def envNoNews : PipelineEnv :=
  { fetch := fun _ => .error "boom"
    classifier := .otherError
    outcomes := fun _ => .otherError
    uuids := fun _ => ""
    today := ""
    crash := none }

/-- C7 (counterexample): when collection is empty the returned statistics
are not all zero-valued — the `after_deduplication` count is absent from
the result dictionary (the code's first early return omits that key), so
the claim that the statistics carry zero counts for all later stages
fails at this input. -/
theorem C7_counterexample :
    (process_news_pipeline envNoNews ["A"]).status = "success" ∧
    (process_news_pipeline envNoNews ["A"]).results = [] ∧
    (process_news_pipeline envNoNews ["A"]).total_collected = 0 ∧
    (process_news_pipeline envNoNews ["A"]).after_deduplication = none ∧
    (process_news_pipeline envNoNews ["A"]).after_deduplication ≠ some 0 := by
  decide

/-- C7 (amended): `process_news_pipeline` always returns a structured
result (it is a total function of its environment).  When an unhandled
exception occurs the result has status "error", all stage counts zero and
an empty result list.  When the output of keyword filtering,
deduplication or classification is empty, the result has status
"success", an empty result list, the actual counts for completed stages
and zero for the empty stage and all later stages.  When collection is
empty the result likewise has status "success", an empty result list and
zero counts — except that the `after_deduplication` count is omitted from
the result dictionary instead of being reported as zero. -/
theorem C7_amended_thm (env : PipelineEnv) (companies : List String) :
    (∀ msg, env.crash = some msg →
      (process_news_pipeline env companies).status = "error" ∧
      (process_news_pipeline env companies).total_collected = 0 ∧
      (process_news_pipeline env companies).after_keyword_filter = 0 ∧
      (process_news_pipeline env companies).after_deduplication = some 0 ∧
      (process_news_pipeline env companies).after_classification = 0 ∧
      (process_news_pipeline env companies).final_summaries = 0 ∧
      (process_news_pipeline env companies).results = []) ∧
    (env.crash = none → collectNews env companies = [] →
      (process_news_pipeline env companies).status = "success" ∧
      (process_news_pipeline env companies).total_collected = 0 ∧
      (process_news_pipeline env companies).after_keyword_filter = 0 ∧
      (process_news_pipeline env companies).after_deduplication = none ∧
      (process_news_pipeline env companies).after_classification = 0 ∧
      (process_news_pipeline env companies).final_summaries = 0 ∧
      (process_news_pipeline env companies).results = []) ∧
    (env.crash = none → collectNews env companies ≠ [] →
      filter_by_keywords important_keywords (collectNews env companies) = [] →
      (process_news_pipeline env companies).status = "success" ∧
      (process_news_pipeline env companies).total_collected =
        (collectNews env companies).length ∧
      (process_news_pipeline env companies).after_keyword_filter = 0 ∧
      (process_news_pipeline env companies).after_deduplication = some 0 ∧
      (process_news_pipeline env companies).after_classification = 0 ∧
      (process_news_pipeline env companies).final_summaries = 0 ∧
      (process_news_pipeline env companies).results = []) ∧
    (env.crash = none → collectNews env companies ≠ [] →
      filter_by_keywords important_keywords (collectNews env companies) ≠ [] →
      remove_similar_titles
        (filter_by_keywords important_keywords (collectNews env companies)) = [] →
      (process_news_pipeline env companies).status = "success" ∧
      (process_news_pipeline env companies).total_collected =
        (collectNews env companies).length ∧
      (process_news_pipeline env companies).after_keyword_filter =
        (filter_by_keywords important_keywords (collectNews env companies)).length ∧
      (process_news_pipeline env companies).after_deduplication = some 0 ∧
      (process_news_pipeline env companies).after_classification = 0 ∧
      (process_news_pipeline env companies).final_summaries = 0 ∧
      (process_news_pipeline env companies).results = []) ∧
    (env.crash = none → collectNews env companies ≠ [] →
      filter_by_keywords important_keywords (collectNews env companies) ≠ [] →
      remove_similar_titles
        (filter_by_keywords important_keywords (collectNews env companies)) ≠ [] →
      classify_news env.classifier
        (remove_similar_titles
          (filter_by_keywords important_keywords (collectNews env companies))) = [] →
      (process_news_pipeline env companies).status = "success" ∧
      (process_news_pipeline env companies).total_collected =
        (collectNews env companies).length ∧
      (process_news_pipeline env companies).after_keyword_filter =
        (filter_by_keywords important_keywords (collectNews env companies)).length ∧
      (process_news_pipeline env companies).after_deduplication =
        some (remove_similar_titles
          (filter_by_keywords important_keywords (collectNews env companies))).length ∧
      (process_news_pipeline env companies).after_classification = 0 ∧
      (process_news_pipeline env companies).final_summaries = 0 ∧
      (process_news_pipeline env companies).results = []) := by
  refine ⟨?_, ?_, ?_, ?_, ?_⟩
  · intro msg hcr
    simp [process_news_pipeline, hcr, pipelineErrorResult]
  · intro hcr h1
    simp [process_news_pipeline, hcr, h1]
  · intro hcr h1 h2
    simp [process_news_pipeline, hcr, h1, h2]
  · intro hcr h1 h2 h3
    simp [process_news_pipeline, hcr, h1, h2, h3]
  · intro hcr h1 h2 h3 h4
    simp [process_news_pipeline, hcr, h1, h2, h3, h4]

/-- An environment whose run hits the top-level exception handler. -/
def envCrash : PipelineEnv :=
  { fetch := fun _ => .ok []
    classifier := .otherError
    outcomes := fun _ => .otherError
    uuids := fun _ => ""
    today := ""
    crash := some "unexpected" }

/-- Witness for C7's amended theorem at a crashing run and at an
empty-collection run. -/
theorem C7_amended_witness :
    (process_news_pipeline envCrash ["A"]).status = "error" ∧
    (process_news_pipeline envNoNews ["A"]).after_deduplication = none :=
  ⟨((C7_amended_thm envCrash ["A"]).1 "unexpected" rfl).1,
   ((C7_amended_thm envNoNews ["A"]).2.1 rfl (by decide)).2.2.2.1⟩

/-! ## Helper lemmas: the store-level keyword filter -/

/-- The fold step of `filterByKeywordsStore`. -/
def storeStep (kws : List String) (acc : List Nat × List NewsRec) (a : Nat) :
    List Nat × List NewsRec :=
  let r := acc.2.getD a defaultRec
  let ms := matchedFor kws r
  if ms.isEmpty then acc
  else (acc.1 ++ [a], acc.2.set a { r with matched_keywords := some ms })

lemma filterByKeywordsStore_eq_foldl (kws : List String) (addrs : List Nat)
    (store : List NewsRec) :
    filterByKeywordsStore kws addrs store =
      addrs.foldl (storeStep kws) ([], store) := rfl

/-- The record after the in-place write of the matched keywords. -/
def updRec (kws : List String) (r : NewsRec) : NewsRec :=
  { r with matched_keywords := some (matchedFor kws r) }

lemma storeStep_empty (kws : List String) (acc : List Nat × List NewsRec)
    (a : Nat) (hm : matchedFor kws (acc.2.getD a defaultRec) = []) :
    storeStep kws acc a = acc := by
  simp only [storeStep]
  rw [if_pos (by simp only [List.isEmpty_iff]; exact hm)]

lemma storeStep_match (kws : List String) (acc : List Nat × List NewsRec)
    (a : Nat) (hm : matchedFor kws (acc.2.getD a defaultRec) ≠ []) :
    storeStep kws acc a =
      (acc.1 ++ [a], acc.2.set a (updRec kws (acc.2.getD a defaultRec))) := by
  simp only [storeStep, updRec]
  rw [if_neg (by simp only [List.isEmpty_iff]; exact hm)]

lemma storeStep_foldl_acc (kws : List String) (addrs : List Nat) :
    ∀ (kept0 : List Nat) (store : List NewsRec),
      addrs.foldl (storeStep kws) (kept0, store) =
        (kept0 ++ (filterByKeywordsStore kws addrs store).1,
         (filterByKeywordsStore kws addrs store).2) := by
  induction addrs with
  | nil => intro kept0 store; simp [filterByKeywordsStore]
  | cons a rest ih =>
    intro kept0 store
    rw [filterByKeywordsStore_eq_foldl, List.foldl_cons, List.foldl_cons]
    by_cases hm : matchedFor kws (store.getD a defaultRec) = []
    · rw [storeStep_empty kws (kept0, store) a hm,
        storeStep_empty kws ([], store) a hm,
        ih kept0 store, ← filterByKeywordsStore_eq_foldl]
    · rw [storeStep_match kws (kept0, store) a hm,
        storeStep_match kws ([], store) a hm]
      simp only []
      rw [ih, ih]
      simp

lemma getD_set_ne {α : Type} (l : List α) {i j : Nat} (x d : α) (h : i ≠ j) :
    (l.set i x).getD j d = l.getD j d := by
  rw [List.getD_eq_getElem?_getD, List.getD_eq_getElem?_getD,
    List.getElem?_set_ne h]

lemma getD_set_eq {α : Type} (l : List α) {i : Nat} (x d : α)
    (h : i < l.length) : (l.set i x).getD i d = x := by
  rw [List.getD_eq_getElem?_getD, List.getElem?_set_self h]
  rfl

lemma filterStore_cons_empty (kws : List String) (a : Nat) (rest : List Nat)
    (store : List NewsRec) (hm : matchedFor kws (store.getD a defaultRec) = []) :
    filterByKeywordsStore kws (a :: rest) store =
      filterByKeywordsStore kws rest store := by
  rw [filterByKeywordsStore_eq_foldl, List.foldl_cons,
    storeStep_empty kws ([], store) a hm, ← filterByKeywordsStore_eq_foldl]

lemma filterStore_cons_match (kws : List String) (a : Nat) (rest : List Nat)
    (store : List NewsRec) (hm : matchedFor kws (store.getD a defaultRec) ≠ []) :
    filterByKeywordsStore kws (a :: rest) store =
      (a :: (filterByKeywordsStore kws rest
          (store.set a (updRec kws (store.getD a defaultRec)))).1,
       (filterByKeywordsStore kws rest
          (store.set a (updRec kws (store.getD a defaultRec)))).2) := by
  rw [filterByKeywordsStore_eq_foldl, List.foldl_cons,
    storeStep_match kws ([], store) a hm]
  simp only []
  rw [storeStep_foldl_acc]
  rfl

/-- C8 (amended): `filter_by_keywords` does mutate the caller's records
in place — it writes the `matched_keywords` field into each retained
record and appends that very record (not a copy) — but this is the only
mutation: the kept addresses are exactly the input addresses whose record
has a keyword match, in input order; a retained record differs from the
original only in its `matched_keywords` field; dropped records and
records outside the address list are left untouched, and the store keeps
its length. -/
theorem C8_amended_thm (kws : List String) (addrs : List Nat)
    (store : List NewsRec) (hnd : addrs.Nodup)
    (hlt : ∀ a ∈ addrs, a < store.length) :
    (filterByKeywordsStore kws addrs store).2.length = store.length ∧
    (filterByKeywordsStore kws addrs store).1 =
      addrs.filter
        (fun a => !(matchedFor kws (store.getD a defaultRec)).isEmpty) ∧
    (∀ a ∈ addrs,
      (filterByKeywordsStore kws addrs store).2.getD a defaultRec =
        if matchedFor kws (store.getD a defaultRec) = [] then
          store.getD a defaultRec
        else updRec kws (store.getD a defaultRec)) ∧
    (∀ a, a ∉ addrs →
      (filterByKeywordsStore kws addrs store).2.getD a defaultRec =
        store.getD a defaultRec) := by
  induction addrs generalizing store with
  | nil =>
    exact ⟨rfl, rfl, fun a ha => absurd ha (List.not_mem_nil a), fun a _ => rfl⟩
  | cons a rest ih =>
    have hnd' : rest.Nodup := hnd.of_cons
    have ha : a ∉ rest := (List.nodup_cons.1 hnd).1
    by_cases hm : matchedFor kws (store.getD a defaultRec) = []
    · rw [filterStore_cons_empty kws a rest store hm]
      obtain ⟨p1, p2, p3, p4⟩ :=
        ih store hnd' (fun b hb => hlt b (List.mem_cons_of_mem a hb))
      refine ⟨p1, ?_, ?_, ?_⟩
      · rw [List.filter_cons]
        simp only [hm]
        simpa using p2
      · intro b hb
        rcases List.mem_cons.1 hb with hb | hb
        · subst hb
          rw [p4 b ha, if_pos hm]
        · exact p3 b hb
      · intro b hb
        exact p4 b fun h => hb (List.mem_cons_of_mem a h)
    · set store' := store.set a (updRec kws (store.getD a defaultRec)) with hst
      have hlen' : store'.length = store.length := List.length_set store a _
      have hsame : ∀ b, b ≠ a → store'.getD b defaultRec = store.getD b defaultRec := by
        intro b hb
        exact getD_set_ne store _ _ (fun h => hb h.symm)
      have hself : store'.getD a defaultRec = updRec kws (store.getD a defaultRec) :=
        getD_set_eq store _ _ (hlt a (List.mem_cons_self a rest))
      rw [filterStore_cons_match kws a rest store hm]
      obtain ⟨p1, p2, p3, p4⟩ := ih store' hnd'
        (fun b hb => hlen' ▸ hlt b (List.mem_cons_of_mem a hb))
      refine ⟨by rw [p1, hlen'], ?_, ?_, ?_⟩
      · rw [List.filter_cons]
        have hcond : (!(matchedFor kws (store.getD a defaultRec)).isEmpty) = true := by
          rcases hML : matchedFor kws (store.getD a defaultRec) with _ | ⟨x, xs⟩
          · exact absurd hML hm
          · rfl
        have hfc : rest.filter
            (fun b => !(matchedFor kws (store'.getD b defaultRec)).isEmpty) =
            rest.filter
            (fun b => !(matchedFor kws (store.getD b defaultRec)).isEmpty) := by
          apply List.filter_congr
          intro b hb
          rw [hsame b fun h => ha (h ▸ hb)]
        rw [p2, hfc]
        simp [hcond]
        rw [if_neg (fun h => hm (by rw [List.getD_eq_getElem?_getD]; exact h))]
      · intro b hb
        rcases List.mem_cons.1 hb with hb | hb
        · subst hb
          rw [p4 b ha, hself, if_neg hm]
        · rw [p3 b hb, hsame b fun h => ha (h ▸ hb)]
      · intro b hb
        have hbna : b ≠ a := fun h => hb (h ▸ List.mem_cons_self a rest)
        have hbnr : b ∉ rest := fun h => hb (List.mem_cons_of_mem a h)
        rw [p4 b hbnr, hsame b hbna]

/-- A one-record store whose record matches the lexicon. -/
def storeK : List NewsRec := [recK]

/-- C8 (counterexample): `filter_by_keywords` mutates the record it
receives: after the call the caller's store differs at the retained
record, whose `matched_keywords` field has been written in place, and the
output aliases that record rather than copying it. -/
theorem C8_counterexample :
    (filterByKeywordsStore important_keywords [0] storeK).2 ≠ storeK ∧
    (filterByKeywordsStore important_keywords [0] storeK).1 = [0] ∧
    (filterByKeywordsStore important_keywords [0] storeK).2 =
      [{ recK with matched_keywords := some ["신작", "출시"] }] := by
  decide

/-- Witness for C8's amended theorem at the concrete store. -/
theorem C8_amended_witness :
    (filterByKeywordsStore important_keywords [0] storeK).1 =
      [0].filter
        (fun a => !(matchedFor important_keywords
          (storeK.getD a defaultRec)).isEmpty) :=
  (C8_amended_thm important_keywords [0] storeK (by decide) (by decide)).2.1

/-- The record of C5's failing input: a 30-character company name, a
70-character title and no description. -/
def recLong : NewsRec :=
  { title := some "BBBBBBBBBBBBBBBBBBBBBBBBBBBBBBBBBBBBBBBBBBBBBBBBBBBBBBBBBBBBBBBBBBBBBB"
    company := some "AAAAAAAAAAAAAAAAAAAAAAAAAAAAAA" }

/-- C5 (code bug): on an item with a title but no description, the
fallback summary is `company + " 관련 뉴스: " + title[:70]` with no
truncation, so with a 30-character company name and a 70-character title
the summary is 108 characters long, exceeding the 100-character cap the
function's own docstring and inline comment promise. -/
theorem C5_code_bug :
    strLen (generate_fallback_summary recLong) = 108 ∧
    ¬ strLen (generate_fallback_summary recLong) ≤ 100 ∧
    generate_fallback_summary recLong ≠ "" := by
  decide

/-! ## Helper lemmas: tokenizing canonical date strings -/

lemma splitFields_ne_nil (p : Char → Bool) (l : List Char) :
    splitFields p l ≠ [] := by
  induction l with
  | nil => simp [splitFields]
  | cons c rest ih =>
    by_cases hc : p c
    · simp [splitFields, hc]
    · rcases hf : splitFields p rest with _ | ⟨h0, t⟩
      · exact absurd hf ih
      · simp [splitFields, hc, hf]

lemma splitFields_sep (p : Char → Bool) (d : Char) (l : List Char)
    (hd : p d = true) : splitFields p (d :: l) = [] :: splitFields p l := by
  simp [splitFields, hd]

lemma splitFields_cons_notsep (p : Char → Bool) (c : Char) (rest : List Char)
    (hc : p c = false) :
    splitFields p (c :: rest) =
      (c :: (splitFields p rest).headI) :: (splitFields p rest).tail := by
  rcases hf : splitFields p rest with _ | ⟨h0, t⟩
  · exact absurd hf (splitFields_ne_nil p rest)
  · simp [splitFields, hc, hf]

lemma splitFields_word_append (p : Char → Bool) (w l : List Char)
    (hw : ∀ c ∈ w, p c = false) :
    splitFields p (w ++ l) =
      (w ++ (splitFields p l).headI) :: (splitFields p l).tail := by
  induction w with
  | nil =>
    rcases hf : splitFields p l with _ | ⟨h0, t⟩
    · exact absurd hf (splitFields_ne_nil p l)
    · simp [hf]
  | cons c w ih =>
    have hc : p c = false := hw c (List.mem_cons_self c w)
    have ih' := ih fun x hx => hw x (List.mem_cons_of_mem c hx)
    rw [List.cons_append, splitFields_cons_notsep p c (w ++ l) hc, ih']
    simp

lemma wordsBy_word_sep (p : Char → Bool) (w : List Char) (d : Char)
    (rest : List Char) (hw : w ≠ []) (hwc : ∀ c ∈ w, p c = false)
    (hd : p d = true) :
    wordsBy p (w ++ d :: rest) = w :: wordsBy p rest := by
  unfold wordsBy
  rw [splitFields_word_append p w (d :: rest) hwc, splitFields_sep p d rest hd]
  simp [hw]

lemma wordsBy_word_end (p : Char → Bool) (w : List Char) (hw : w ≠ [])
    (hwc : ∀ c ∈ w, p c = false) : wordsBy p w = [w] := by
  unfold wordsBy
  rw [show w = w ++ [] from (List.append_nil w).symm,
    splitFields_word_append p w [] hwc]
  simp [splitFields, hw]

lemma takeWhile_append_all (p : Char → Bool) (xs ys : List Char)
    (h : ∀ c ∈ xs, p c = true) :
    (xs ++ ys).takeWhile p = xs ++ ys.takeWhile p := by
  induction xs with
  | nil => rfl
  | cons c xs ih =>
    have hc : p c = true := h c (List.mem_cons_self c xs)
    simp only [List.cons_append, List.takeWhile_cons, hc, if_true]
    rw [ih fun x hx => h x (List.mem_cons_of_mem c hx)]

lemma digitChar10_props (v : Nat) (h : v < 10) :
    digitVal (digitChar10 v) = some v ∧ (digitChar10 v).isWhitespace = false ∧
    digitChar10 v ≠ '+' ∧ digitChar10 v ≠ ':' := by
  unfold digitChar10
  interval_cases v <;> decide

lemma digitVal_digitChar (x : Nat) (h : x < 10) :
    digitVal (digitChar10 x) = some x :=
  (digitChar10_props x h).1

lemma digitChar_not_special (x : Nat) :
    (digitChar10 x).isWhitespace = false ∧
    digitChar10 x ≠ '+' ∧ digitChar10 x ≠ ':' := by
  have h : x % 10 < 10 := Nat.mod_lt _ (by omega)
  have he : digitChar10 x = digitChar10 (x % 10) := by
    unfold digitChar10
    congr 1
    omega
  rw [he]
  exact (digitChar10_props (x % 10) h).2

lemma mem_showD2_not_special {c : Char} {n : Nat} (hc : c ∈ showD2 n) :
    c.isWhitespace = false ∧ c ≠ '+' ∧ c ≠ ':' := by
  simp only [showD2, List.mem_cons, List.not_mem_nil, or_false] at hc
  rcases hc with rfl | rfl <;> exact digitChar_not_special _

lemma mem_showD4_not_special {c : Char} {n : Nat} (hc : c ∈ showD4 n) :
    c.isWhitespace = false ∧ c ≠ '+' ∧ c ≠ ':' := by
  simp only [showD4, List.mem_cons, List.not_mem_nil, or_false] at hc
  rcases hc with rfl | rfl | rfl | rfl <;> exact digitChar_not_special _

lemma natOfDigits_showD2 (n : Nat) (hn : n ≤ 99) :
    natOfDigits (showD2 n) = some n := by
  have h1 : n / 10 < 10 := by omega
  have h2 : n % 10 < 10 := by omega
  simp only [natOfDigits, showD2, List.foldl, digitVal_digitChar _ h1,
    digitVal_digitChar _ h2]
  congr 1
  omega

lemma natOfDigits_showD4 (n : Nat) (hn : n ≤ 9999) :
    natOfDigits (showD4 n) = some n := by
  have h1 : n / 1000 < 10 := by omega
  have h2 : n / 100 % 10 < 10 := by omega
  have h3 : n / 10 % 10 < 10 := by omega
  have h4 : n % 10 < 10 := by omega
  simp only [natOfDigits, showD4, List.foldl, digitVal_digitChar _ h1,
    digitVal_digitChar _ h2, digitVal_digitChar _ h3, digitVal_digitChar _ h4]
  congr 1
  omega

lemma daysInMonth_le_31 (y m : Nat) : daysInMonth y m ≤ 31 := by
  unfold daysInMonth
  split_ifs <;> omega

/-- The capitalized abbreviated month names of the canonical form. -/
def monthNamesCap : List (List Char) :=
  ["Jan".toList, "Feb".toList, "Mar".toList, "Apr".toList,
   "May".toList, "Jun".toList, "Jul".toList, "Aug".toList,
   "Sep".toList, "Oct".toList, "Nov".toList, "Dec".toList]

/-- The capitalized abbreviated name of month `m` (1..12). -/
def monthNameCap (m : Nat) : List Char :=
  monthNamesCap.getD (m - 1) []

lemma monthName_facts (m : Nat) (h1 : 1 ≤ m) (h2 : m ≤ 12) :
    monthNum (monthNameCap m) = some m ∧ monthNameCap m ≠ [] ∧
    ∀ c ∈ monthNameCap m, c.isWhitespace = false ∧ c ≠ '+' := by
  interval_cases m <;> decide

/-- The canonical weekday abbreviations. -/
def weekdayNamesCap : List String :=
  ["Mon", "Tue", "Wed", "Thu", "Fri", "Sat", "Sun"]

lemma weekday_facts (wd : String) (h : wd ∈ weekdayNamesCap) :
    wd.toList ≠ [] ∧ (∀ c ∈ wd.toList, c.isWhitespace = false ∧ c ≠ '+') ∧
    weekdayAbbrs.contains (wd.toList.map Char.toLower) = true := by
  fin_cases h <;> decide

/-- The `HH:MM:SS` token of the canonical form. -/
def timeTok (h mi s : Nat) : List Char :=
  showD2 h ++ ':' :: (showD2 mi ++ ':' :: showD2 s)

/-- A publication date string in the source's canonical form
`"Mon, 18 Dec 2023 14:30:00 +0900"`. -/
def mkPubDate (wd : String) (d m y h mi s : Nat) : String :=
  String.mk ((wd.toList ++ [',']) ++ ' ' ::
    (showD2 d ++ ' ' :: (monthNameCap m ++ ' ' ::
      (showD4 y ++ ' ' :: (timeTok h mi s ++ [' ', '+', '0', '9', '0', '0'])))))

lemma mem_timeTok_not_ws {c : Char} {h mi s : Nat} (hc : c ∈ timeTok h mi s) :
    c.isWhitespace = false ∧ c ≠ '+' := by
  unfold timeTok at hc
  rcases List.mem_append.1 hc with hc | hc
  · exact ⟨(mem_showD2_not_special hc).1, (mem_showD2_not_special hc).2.1⟩
  rcases List.mem_cons.1 hc with rfl | hc
  · exact ⟨rfl, by decide⟩
  rcases List.mem_append.1 hc with hc | hc
  · exact ⟨(mem_showD2_not_special hc).1, (mem_showD2_not_special hc).2.1⟩
  rcases List.mem_cons.1 hc with rfl | hc
  · exact ⟨rfl, by decide⟩
  exact ⟨(mem_showD2_not_special hc).1, (mem_showD2_not_special hc).2.1⟩

lemma showD2_no_colon (n : Nat) : ∀ c ∈ showD2 n, decide (c = ':') = false := by
  intro c hc
  simp [(mem_showD2_not_special hc).2.2]

lemma splitFields_timeTok (h mi s : Nat) :
    splitFields (fun x => decide (x = ':')) (timeTok h mi s) =
      [showD2 h, showD2 mi, showD2 s] := by
  unfold timeTok
  rw [splitFields_word_append _ (showD2 h) _ (showD2_no_colon h),
    splitFields_sep _ ':' _ (by decide),
    splitFields_word_append _ (showD2 mi) _ (showD2_no_colon mi),
    splitFields_sep _ ':' _ (by decide),
    show showD2 s = showD2 s ++ [] from (List.append_nil _).symm,
    splitFields_word_append _ (showD2 s) [] (showD2_no_colon s)]
  simp [splitFields]

lemma parseTime_timeTok (h mi s : Nat) (hh : h ≤ 23) (hmi : mi ≤ 59)
    (hs : s ≤ 59) : parseTime (timeTok h mi s) = true := by
  unfold parseTime
  rw [splitFields_timeTok h mi s]
  simp only [natOfDigits_showD2 h (by omega : h ≤ 99),
    natOfDigits_showD2 mi (by omega : mi ≤ 99),
    natOfDigits_showD2 s (by omega : s ≤ 99)]
  simp [showD2, hh, hmi, hs]

lemma toList_mk (l : List Char) : (String.mk l).toList = l := rfl

lemma parseTokens_five (w1 dd mon yyyy time : List Char) :
    parseTokens [w1, dd, mon, yyyy, time] =
      if w1.getLast? = some ',' &&
          weekdayAbbrs.contains (w1.dropLast.map Char.toLower) then
        match monthNum mon, natOfDigits yyyy with
        | some m, some y =>
          if yyyy.length = 4 ∧ 1 ≤ y then
            match parseDay y m dd with
            | some d => if parseTime time then some (y, m, d) else none
            | none => none
          else none
        | _, _ => none
      else none := rfl

lemma parse_mkPubDate (wd : String) (y m d h mi s : Nat)
    (hwd : wd ∈ weekdayNamesCap) (hy1 : 1000 ≤ y) (hy2 : y ≤ 9999)
    (hm1 : 1 ≤ m) (hm2 : m ≤ 12) (hd1 : 1 ≤ d) (hd2 : d ≤ daysInMonth y m)
    (hh : h ≤ 23) (hmi : mi ≤ 59) (hs : s ≤ 59) :
    parsePubDate (mkPubDate wd d m y h mi s) = some (y, m, d) := by
  obtain ⟨hwne, hwch, hwcont⟩ := weekday_facts wd hwd
  obtain ⟨hmn, hmne, hmch⟩ := monthName_facts m hm1 hm2
  have hd99 : d ≤ 99 := le_trans hd2 (le_trans (daysInMonth_le_31 y m) (by omega))
  -- the characters before the '+' marker
  have hplus : ∀ (seg : List Char), (∀ c ∈ seg, c ≠ '+') →
      ∀ (rest : List Char),
        (seg ++ rest).takeWhile (fun c => decide (¬c = '+')) =
          seg ++ rest.takeWhile (fun c => decide (¬c = '+')) := by
    intro seg hseg rest
    exact takeWhile_append_all _ seg rest fun c hc => by simp [hseg c hc]
  unfold parsePubDate mkPubDate
  rw [toList_mk]
  rw [hplus (wd.toList ++ [','])
    (fun c hc => by
      rcases List.mem_append.1 hc with hc | hc
      · exact (hwch c hc).2
      · simp at hc; simp [hc])]
  rw [show ((' ' :: (showD2 d ++ ' ' :: (monthNameCap m ++ ' ' ::
      (showD4 y ++ ' ' :: (timeTok h mi s ++
        [' ', '+', '0', '9', '0', '0']))))).takeWhile
        (fun c => decide (¬c = '+'))) =
      ' ' :: ((showD2 d ++ ' ' :: (monthNameCap m ++ ' ' ::
      (showD4 y ++ ' ' :: (timeTok h mi s ++
        [' ', '+', '0', '9', '0', '0'])))).takeWhile
        (fun c => decide (¬c = '+'))) from by
    rw [List.takeWhile_cons]
    simp]
  rw [hplus (showD2 d) (fun c hc => (mem_showD2_not_special hc).2.1)]
  rw [show ((' ' :: (monthNameCap m ++ ' ' ::
      (showD4 y ++ ' ' :: (timeTok h mi s ++
        [' ', '+', '0', '9', '0', '0'])))).takeWhile
        (fun c => decide (¬c = '+'))) =
      ' ' :: ((monthNameCap m ++ ' ' ::
      (showD4 y ++ ' ' :: (timeTok h mi s ++
        [' ', '+', '0', '9', '0', '0']))).takeWhile
        (fun c => decide (¬c = '+'))) from by
    rw [List.takeWhile_cons]
    simp]
  rw [hplus (monthNameCap m) (fun c hc => (hmch c hc).2)]
  rw [show ((' ' :: (showD4 y ++ ' ' :: (timeTok h mi s ++
        [' ', '+', '0', '9', '0', '0']))).takeWhile
        (fun c => decide (¬c = '+'))) =
      ' ' :: ((showD4 y ++ ' ' :: (timeTok h mi s ++
        [' ', '+', '0', '9', '0', '0'])).takeWhile
        (fun c => decide (¬c = '+'))) from by
    rw [List.takeWhile_cons]
    simp]
  rw [hplus (showD4 y) (fun c hc => (mem_showD4_not_special hc).2.1)]
  rw [show ((' ' :: (timeTok h mi s ++
        [' ', '+', '0', '9', '0', '0'])).takeWhile
        (fun c => decide (¬c = '+'))) =
      ' ' :: ((timeTok h mi s ++
        [' ', '+', '0', '9', '0', '0']).takeWhile
        (fun c => decide (¬c = '+'))) from by
    rw [List.takeWhile_cons]
    simp]
  rw [hplus (timeTok h mi s) (fun c hc => (mem_timeTok_not_ws hc).2)]
  rw [show (([' ', '+', '0', '9', '0', '0'] : List Char).takeWhile
        (fun c => decide (¬c = '+'))) = [' '] from by decide]
  -- tokenize the five words
  rw [wordsBy_word_sep Char.isWhitespace (wd.toList ++ [',']) ' ' _
    (by simp)
    (fun c hc => by
      rcases List.mem_append.1 hc with hc | hc
      · exact (hwch c hc).1
      · simp at hc; simp [hc])
    (by decide)]
  rw [wordsBy_word_sep Char.isWhitespace (showD2 d) ' ' _
    (by simp [showD2])
    (fun c hc => (mem_showD2_not_special hc).1)
    (by decide)]
  rw [wordsBy_word_sep Char.isWhitespace (monthNameCap m) ' ' _
    hmne
    (fun c hc => (hmch c hc).1)
    (by decide)]
  rw [wordsBy_word_sep Char.isWhitespace (showD4 y) ' ' _
    (by simp [showD4])
    (fun c hc => (mem_showD4_not_special hc).1)
    (by decide)]
  rw [show wordsBy Char.isWhitespace (timeTok h mi s ++ [' ']) =
      [timeTok h mi s] from by
    rw [wordsBy_word_sep Char.isWhitespace (timeTok h mi s) ' ' []
      (by simp [timeTok, showD2])
      (fun c hc => (mem_timeTok_not_ws hc).1)
      (by decide)]
    rfl]
  -- parse the five tokens
  rw [parseTokens_five, List.getLast?_concat, List.dropLast_concat]
  have h1y : 1 ≤ y := by omega
  have hwmem : List.map Char.toLower wd.toList ∈ weekdayAbbrs := by
    simpa using hwcont
  simp only [hmn, natOfDigits_showD4 y hy2, parseDay,
    natOfDigits_showD2 d hd99]
  simp [showD4, showD2, h1y, hd1, hd2, hwmem,
    parseTime_timeTok h mi s hh hmi hs]
  exact hwmem

lemma mkPubDate_ne_empty (wd : String) (d m y h mi s : Nat) :
    mkPubDate wd d m y h mi s ≠ "" := by
  intro hcontra
  have h2 := congrArg String.data hcontra
  simp [mkPubDate] at h2

/-- C9 (counterexample): on the empty pubDate string the function returns
the empty string, not the current date, although parsing the empty string
fails. -/
theorem C9_counterexample :
    format_published_date "20251012" "" = "" ∧
    parsePubDate "" = none ∧
    format_published_date "20251012" "" ≠ "20251012" := by
  decide

/-- C9 (amended): `_format_published_date` converts every parseable
source pubDate string of the canonical form
`"Mon, 18 Dec 2023 14:30:00 +0900"` (any recognized weekday name, any
valid calendar date with a four-digit year, any valid time of day) into
the `YYYYMMDD` rendering of that date; for every NON-EMPTY input on which
parsing fails it substitutes the current date; the empty string is
returned unchanged as the empty string rather than being replaced by the
current date. -/
theorem C9_amended_thm :
    (∀ (today wd : String) (y m d h mi s : Nat),
      wd ∈ weekdayNamesCap → 1000 ≤ y → y ≤ 9999 → 1 ≤ m → m ≤ 12 →
      1 ≤ d → d ≤ daysInMonth y m → h ≤ 23 → mi ≤ 59 → s ≤ 59 →
      format_published_date today (mkPubDate wd d m y h mi s) =
        renderYMD y m d) ∧
    (∀ (today pub : String), pub ≠ "" → parsePubDate pub = none →
      format_published_date today pub = today) ∧
    (∀ today : String, format_published_date today "" = "") := by
  refine ⟨?_, ?_, fun today => rfl⟩
  · intro today wd y m d h mi s hwd hy1 hy2 hm1 hm2 hd1 hd2 hh hmi hs
    unfold format_published_date
    rw [if_neg (mkPubDate_ne_empty wd d m y h mi s),
      parse_mkPubDate wd y m d h mi s hwd hy1 hy2 hm1 hm2 hd1 hd2 hh hmi hs]
  · intro today pub hne hparse
    unfold format_published_date
    rw [if_neg hne, hparse]

/-- Witness for C9's amended theorem: the docstring's own example round
trips; a year of fewer than four digits is a parse failure (CPython's
`%Y` requires exactly four digits) and yields the current date; a
four-digit year below 1000 renders unpadded as `strftime` does. -/
theorem C9_amended_witness :
    mkPubDate "Mon" 18 12 2023 14 30 0 = "Mon, 18 Dec 2023 14:30:00 +0900" ∧
    format_published_date "19990101" (mkPubDate "Mon" 18 12 2023 14 30 0) =
      "20231218" ∧
    format_published_date "20250101" "Mon, 18 Dec 999 14:30:00 +0900" =
      "20250101" ∧
    format_published_date "20250101" "Mon, 18 Dec 0999 14:30:00 +0900" =
      "9991218" :=
  ⟨by decide,
   (C9_amended_thm.1 "19990101" "Mon" 2023 12 18 14 30 0 (by decide)
      (by omega) (by omega) (by omega) (by omega) (by omega) (by decide)
      (by omega) (by omega) (by omega)).trans (by decide),
   C9_amended_thm.2.1 "20250101" "Mon, 18 Dec 999 14:30:00 +0900"
     (by decide) (by decide),
   by decide⟩
